import Mathlib

/-!
Shallow embedding of the YNWA Cards soccer-stats aggregation engine
(`src/stats-updater.js`): feed-client fallback, per-competition record
merge, global aggregation, derived fields, ranking/truncation, snapshot
cache, and initialization guard.

JavaScript mutable state is passed explicitly; thrown exceptions are
modelled with `Except Unit`; possibly-null JSON fields are `Option`;
the JS `Map` (which preserves insertion order) is an association list.
-/

namespace YnwaStats

/-- Configuration constant `CONFIG.CACHE_DURATION = 24 * 60 * 60 * 1000`
(24 hours in milliseconds). -/
def CACHE_DURATION : Int := 24 * 60 * 60 * 1000

/-- Configuration constant `CONFIG.TOP_PLAYERS_COUNT = 10`. -/
def TOP_PLAYERS_COUNT : Nat := 10

/-- Configuration constant `CONFIG.API_KEY`, left at its placeholder value
`'YOUR_API_KEY_HERE'` in the source. -/
def API_KEY : String := "YOUR_API_KEY_HERE"

/-- The `player` block of a raw feed entry (`item.player`). -/
structure RawPlayer where
  id : Nat
  name : String
  photo : String
deriving DecidableEq

/-- The `goals` block of a raw statistics record (`stats.goals`); `total`
and `assists` may be null in the JSON, hence `Option`. -/
structure RawGoals where
  total : Option Nat
  assists : Option Nat
deriving DecidableEq

/-- The `games` block of a raw statistics record (`stats.games`);
`appearences` (sic, API spelling) may be null; `rating` is a numeric
string or null, modelled as the `parseFloat` value scaled to hundredths
(API ratings carry two decimals), or `none` when null. -/
structure RawGames where
  appearences : Option Nat
  position : String
  rating : Option Int
deriving DecidableEq

/-- One raw statistics record (`item.statistics[i]`); `team` stands for
`stats.team.name`. -/
structure RawStats where
  team : String
  games : RawGames
  goals : RawGoals
deriving DecidableEq

/-- One raw feed entry: a player block plus a list of statistics records.
The code reads `item.statistics[0]`; an empty list models a malformed
entry whose statistics block is missing (dereferencing it throws). -/
structure RawEntry where
  player : RawPlayer
  statistics : List RawStats
deriving DecidableEq

/-- A merged player record, as built at lines 133-144 of
`stats-updater.js`; `rating` is in hundredths. -/
structure PlayerRecord where
  id : Nat
  name : String
  photo : String
  team : String
  league : String
  position : String
  goals : Nat
  assists : Nat
  appearances : Nat
  rating : Int
deriving DecidableEq

/-- The global `allPlayers` JS `Map`, which preserves insertion order:
an association list from player id to record, new keys appended at the
end. -/
abbrev PlayerMap := List (Nat × PlayerRecord)

/-- JS `Map.get`-style lookup: first binding of the given key. -/
def lookupId (pid : Nat) : PlayerMap → Option PlayerRecord
  | [] => none
  | e :: m => if e.1 = pid then some e.2 else lookupId pid m

/-- JS `Map.has`. -/
def containsKey (m : PlayerMap) (pid : Nat) : Bool :=
  (lookupId pid m).isSome

/-- JS `x || d` on a possibly-null number `x`: both `null` and `0` are
falsy, so the default is taken exactly when the value is absent or zero. -/
def jsOrNat (x : Option Nat) (d : Nat) : Nat :=
  match x with
  | some n => if n = 0 then d else n
  | none => d

/-- JS `leagueName.replace('_', ' ')` on the character list: with a
string pattern, `String.prototype.replace` rewrites only the first
occurrence. -/
def replaceFirstUnderscore : List Char → List Char
  | [] => []
  | c :: cs => if c = '_' then ' ' :: cs else c :: replaceFirstUnderscore cs

/-- JS `leagueName.replace('_', ' ')` (line 138). -/
def jsLeagueLabel (s : String) : String :=
  ⟨replaceFirstUnderscore s.data⟩

/-- Build a `PlayerRecord` from a scorer entry (lines 133-144).
`goals.total || 0`, `goals.assists || 0` and `games.appearences || 0`
default absent/zero values to 0; `rating` defaults to 0 when null;
`league` is the league name with its first `_` replaced by a space. -/
def mkScorerRecord (leagueName : String) (p : RawPlayer) (s : RawStats) :
    PlayerRecord :=
  { id := p.id
    name := p.name
    photo := p.photo
    team := s.team
    league := jsLeagueLabel leagueName
    position := s.games.position
    goals := s.goals.total.getD 0
    assists := s.goals.assists.getD 0
    appearances := s.games.appearences.getD 0
    rating := s.games.rating.getD 0 }

/-- One step of the `scorers.forEach` loop (lines 127-146): skip players
already in the map; otherwise dereference `statistics[0]` (a `TypeError`
escapes the loop when the statistics list is empty, modelled as
`.error ()`) and append a new record. -/
def processScorer (leagueName : String) (m : PlayerMap) (item : RawEntry) :
    Except Unit PlayerMap :=
  if containsKey m item.player.id then
    .ok m
  else
    match item.statistics with
    | [] => .error ()
    | stats :: _ =>
        .ok (m ++ [(item.player.id, mkScorerRecord leagueName item.player stats)])

/-- Overwrite the `assists` field of the record bound to `pid`
(`playerData.assists = stats.goals.assists || playerData.assists`,
line 154). -/
def updateAssists (m : PlayerMap) (pid : Nat) (av : Option Nat) : PlayerMap :=
  m.map fun e =>
    if e.1 = pid then (e.1, { e.2 with assists := jsOrNat av e.2.assists })
    else e

/-- One step of the `assists.forEach` loop (lines 149-156): entries whose
player is absent from the map are ignored; for a present player,
`statistics[0].goals.assists` is dereferenced (throwing when the
statistics list is empty) and the assists field updated. -/
def processAssist (m : PlayerMap) (item : RawEntry) : Except Unit PlayerMap :=
  if containsKey m item.player.id then
    match item.statistics with
    | [] => .error ()
    | stats :: _ => .ok (updateAssists m item.player.id stats.goals.assists)
  else
    .ok m

/-- The scorer and assist feeds of one competition, plus its configured
league name. -/
structure Competition where
  leagueName : String
  scorers : List RawEntry
  assists : List RawEntry
deriving DecidableEq

/-- Process one competition into the running global map: the scorer pass
followed by the assist pass (body of the league loop, lines 118-157). -/
def processCompetition (m : PlayerMap) (c : Competition) :
    Except Unit PlayerMap := do
  let m1 ← c.scorers.foldlM (processScorer c.leagueName) m
  c.assists.foldlM processAssist m1

/-- The full league loop of `getAllPlayers`: fold all competitions, in
configuration order, into one global map starting from the empty map. -/
def aggregate (comps : List Competition) : Except Unit PlayerMap :=
  comps.foldlM processCompetition []

/-- Feed client `getTopScorers` (lines 79-90): a transport error from the
fetch is caught and an empty list returned. -/
def getTopScorers (result : Except Unit (List RawEntry)) : List RawEntry :=
  match result with
  | .ok d => d
  | .error _ => []

/-- Feed client `getTopAssists` (lines 93-104): same fail-soft shape. -/
def getTopAssists (result : Except Unit (List RawEntry)) : List RawEntry :=
  match result with
  | .ok d => d
  | .error _ => []

/-- The fetch outcomes for one competition: transport results of the two
feed requests. -/
structure CompetitionFetch where
  leagueName : String
  scorersResult : Except Unit (List RawEntry)
  assistsResult : Except Unit (List RawEntry)

/-- Turn fetch outcomes into the competition's feed lists via the
fail-soft feed client. -/
def runCompetitionFetch (f : CompetitionFetch) : Competition :=
  { leagueName := f.leagueName
    scorers := getTopScorers f.scorersResult
    assists := getTopAssists f.assistsResult }

/-- Aggregation over fetch outcomes. -/
def aggregateFetched (fs : List CompetitionFetch) : Except Unit PlayerMap :=
  aggregate (fs.map runCompetitionFetch)

/-- A player record extended with the derived fields of lines 160-164;
`goalsPerGame` holds the `toFixed(2)` result scaled to hundredths. -/
structure RankedPlayer where
  base : PlayerRecord
  goalsAndAssists : Nat
  goalsPerGame : Nat
deriving DecidableEq

/-- Floor of the base-2 logarithm of a positive natural, with an explicit
fuel argument for structural recursion; `fuel ≥ n` suffices. -/
def log2floorAux : Nat → Nat → Nat
  | 0, _ => 0
  | fuel + 1, n => if n ≤ 1 then 0 else log2floorAux fuel (n / 2) + 1

/-- Floor of the base-2 logarithm of a positive natural. -/
def log2floor (n : Nat) : Nat := log2floorAux n n

/-- The binary exponent of the quotient of two positive naturals: the
unique integer `E` with `2 ^ E ≤ g / a < 2 ^ (E + 1)`, computed by first
scaling the quotient above 1 (`2 ^ k > a`, so `g * 2 ^ k / a ≥ 1`). -/
def floorLog2Div (g a : Nat) : Int :=
  let k := log2floor a + 1
  (log2floor (g * 2 ^ k / a) : Int) - k

/-- IEEE-754 binary64 division of two positive naturals in the normal
range (no overflow or subnormals, which the feed statistics can never
reach): the correctly rounded quotient under round-to-nearest,
ties-to-even, returned as a mantissa-exponent pair `(m, e)` whose exact
value is `m * 2 ^ e` with `2 ^ 52 ≤ m ≤ 2 ^ 53`. This is the JS engine's
`player.goals / player.appearances` at line 163: the mantissa is the
quotient scaled to 53 bits, rounded down, up, or to the even neighbour
according to the remainder. -/
def jsDivSig (g a : Nat) : Nat × Int :=
  let E := floorLog2Div g a
  let shift := 52 - E
  let num := if 0 ≤ shift then g * 2 ^ shift.toNat else g
  let den := if 0 ≤ shift then a else a * 2 ^ (-shift).toNat
  let m0 := num / den
  let r := num % den
  let m :=
    if 2 * r < den then m0
    else if den < 2 * r then m0 + 1
    else if m0 % 2 = 0 then m0 else m0 + 1
  (m, E - 52)

/-- ECMAScript `toFixed(2)` on the nonnegative double `m * 2 ^ e`,
scaled to hundredths: the integer closest to `100 * m * 2 ^ e`, taking
the larger of two equally close candidates, i.e.
`⌊100 * m * 2 ^ e + 1 / 2⌋`, in integer arithmetic. -/
def toFixed2OfParts (m : Nat) (e : Int) : Nat :=
  if 0 ≤ e then 100 * m * 2 ^ e.toNat
  else (200 * m + 2 ^ (-e).toNat) / (2 * 2 ^ (-e).toNat)

/-- JS `(g / a).toFixed(2)` in hundredths, for `a > 0`: `toFixed(2)`
applied to the binary64 quotient `g / a` (`0 / a` is the double `+0`,
printed `"0.00"`). -/
def jsToFixed2 (g a : Nat) : Nat :=
  if g = 0 then 0
  else toFixed2OfParts (jsDivSig g a).1 (jsDivSig g a).2

/-- Compute the derived fields of one record (lines 160-164):
`goalsAndAssists = goals + assists`, and `goalsPerGame` is
`(goals / appearances).toFixed(2)` (held in hundredths) when
appearances is positive, else the number 0. -/
def deriveStats (p : PlayerRecord) : RankedPlayer :=
  { base := p
    goalsAndAssists := p.goals + p.assists
    goalsPerGame :=
      if 0 < p.appearances then jsToFixed2 p.goals p.appearances
      else 0 }

/-- The sort comparator `(a, b) => b.goalsAndAssists - a.goalsAndAssists`
(line 167): `a` may precede `b` exactly when the comparator is
nonpositive, i.e. descending by combined score. -/
def byGoalsAndAssists (a b : RankedPlayer) : Bool :=
  b.goalsAndAssists ≤ a.goalsAndAssists

/-- Lines 160-170: derive fields for every map value, sort descending by
combined score (JS `Array.prototype.sort` is stable, modelled by
`mergeSort`), and truncate to the configured leaderboard size. -/
def rankPlayers (ps : List PlayerRecord) : List RankedPlayer :=
  (((ps.map deriveStats)).mergeSort byGoalsAndAssists).take TOP_PLAYERS_COUNT

/-- The values of the global map, in insertion order
(`Array.from(allPlayers.values())`). -/
def mapValues (m : PlayerMap) : List PlayerRecord := m.map (·.2)

/-- The whole fresh-data path of `getAllPlayers` (lines 113-175, without
the cache write): aggregate all competitions and rank. -/
def topPlayers (comps : List CompetitionFetch) :
    Except Unit (List RankedPlayer) :=
  (aggregateFetched comps).map (fun m => rankPlayers (mapValues m))

/-- The parsed content of the `ynwa_stats_cache` localStorage entry:
a timestamp and (when the field is present) the cached player list. -/
structure CacheData where
  timestamp : Int
  players : Option (List RankedPlayer)
deriving DecidableEq

/-- The backing store (localStorage slot): absent, present but
unparseable (`JSON.parse` throws), or parsed. -/
abbrev CacheStore := Option (Except Unit CacheData)

/-- `loadCache` (lines 22-37): return the parsed data when it exists and
is younger than `CACHE_DURATION`; an absent, stale or corrupt entry
yields `none` (the JS returns `null`, any parse error being caught). -/
def loadCache (now : Int) (store : CacheStore) : Option CacheData :=
  match store with
  | some (.ok data) =>
      if now - data.timestamp < CACHE_DURATION then some data else none
  | some (.error _) => none
  | none => none

/-- `saveCache` (lines 40-50): store the players stamped with the current
time. -/
def saveCache (players : List RankedPlayer) (now : Int) : CacheStore :=
  some (.ok { timestamp := now, players := some players })

/-- The manager's state: the `this.cache` field set once in the
constructor, plus the backing store. -/
structure ManagerState where
  cache : Option CacheData
  store : CacheStore

/-- The constructor (lines 16-19): `this.cache = this.loadCache()`,
evaluated once against the clock value at construction time. -/
def mkManager (now : Int) (store : CacheStore) : ManagerState :=
  { cache := loadCache now store, store := store }

/-- The cache-miss branch of `getAllPlayers`: compute the leaderboard and
write it through `saveCache`; an exception escaping the merge leaves the
store untouched. -/
def freshFetch (st : ManagerState) (now : Int)
    (comps : List CompetitionFetch) :
    Except Unit (List RankedPlayer) × ManagerState :=
  match topPlayers comps with
  | .ok top => (.ok top, { st with store := saveCache top now })
  | .error e => (.error e, st)

/-- `getAllPlayers` (lines 107-176): when `this.cache && this.cache.players`
is truthy the cached list is returned with no clock check and no fetch;
otherwise the fresh path runs. -/
def getAllPlayers (st : ManagerState) (now : Int)
    (comps : List CompetitionFetch) :
    Except Unit (List RankedPlayer) × ManagerState :=
  match st.cache with
  | some data =>
      match data.players with
      | some ps => (.ok ps, st)
      | none => freshFetch st now comps
  | none => freshFetch st now comps

/-- The manual-refresh invalidation (lines 326-327):
`localStorage.removeItem('ynwa_stats_cache'); this.cache = null`. -/
def invalidate (_st : ManagerState) : ManagerState :=
  { cache := none, store := none }

/-- Outcome of `initialize` (lines 349-367) as far as the credential
guard is concerned. -/
inductive InitOutcome where
  | apiKeyWarning
  | ranAggregation
deriving DecidableEq

/-- The credential guard of `initialize` (line 353): the code shows the
API-key warning exactly when the configured key equals the literal
`'57f67398e65a9dd967d70fe6ecfd76df'`; otherwise it proceeds to run the
aggregation. -/
def checkInitialize (apiKey : String) : InitOutcome :=
  if apiKey = "57f67398e65a9dd967d70fe6ecfd76df" then .apiKeyWarning
  else .ranAggregation

/-- Fixture: player block used by concrete test feeds. -/
def exPlayerA : RawPlayer := ⟨10, "A", "photoA"⟩

/-- Fixture: scorer statistics for player 10 (5 goals, 2 assists,
20 appearances). -/
def exStatsA : RawStats := ⟨"TeamA", ⟨some 20, "FW", some 700⟩, ⟨some 5, some 2⟩⟩

/-- Fixture: scorer entry for player 10. -/
def exScorerA : RawEntry := ⟨exPlayerA, [exStatsA]⟩

/-- Fixture: scorer entry for player 2 (3 goals, 4 assists). -/
def exScorerB : RawEntry :=
  ⟨⟨2, "B", "photoB"⟩, [⟨"TeamB", ⟨some 15, "MF", some 710⟩, ⟨some 3, some 4⟩⟩]⟩

/-- Fixture: assist entry for player 10 carrying 7 assists. -/
def exAssistA7 : RawEntry :=
  ⟨exPlayerA, [⟨"TeamA", ⟨some 18, "FW", some 650⟩, ⟨none, some 7⟩⟩]⟩

/-- Fixture: assist entry for player 3, who appears in no scorer feed. -/
def exAssistOnly : RawEntry :=
  ⟨⟨3, "C", "photoC"⟩, [⟨"TeamC", ⟨some 10, "MF", none⟩, ⟨some 1, some 9⟩⟩]⟩

/-- Fixture: a malformed entry whose statistics block is empty. -/
def exMalformed : RawEntry := ⟨⟨99, "M", "photoM"⟩, []⟩

/-- Fixture: first competition, scorer feed only. -/
def exComp1 : Competition := ⟨"PREMIER_LEAGUE", [exScorerA], []⟩

/-- Fixture: second competition, whose assist feed mentions player 10. -/
def exComp2 : Competition := ⟨"LA_LIGA", [], [exAssistA7]⟩

/-- Fixture: one competition with a scorer entry for player 10 and an
assist-only entry for player 3. -/
def exCompJoin : Competition := ⟨"PREMIER_LEAGUE", [exScorerA], [exAssistOnly]⟩

/-- Fixture: one competition where player 10 appears in both feeds. -/
def exCompBoth : Competition := ⟨"PREMIER_LEAGUE", [exScorerA], [exAssistA7]⟩

/-- Fixture: the record built from player 10's scorer entry. -/
def exRecA : PlayerRecord := mkScorerRecord "PREMIER_LEAGUE" exPlayerA exStatsA

/-- Fixture: the map produced by the scorer pass over `[exScorerA]`. -/
def exMap1 : PlayerMap := [(10, exRecA)]

/-- Fixture: `exMap1` after the assist feed overwrote assists with 7. -/
def exMap2 : PlayerMap := [(10, { exRecA with assists := 7 })]

/-- Fixture: a player with 7 goals in 3 appearances, for the rounding
example 7 / 3 = 2.33. -/
def exSeven : PlayerRecord :=
  { id := 7, name := "S", photo := "pS", team := "T", league := "L",
    position := "FW", goals := 7, assists := 1, appearances := 3, rating := 0 }

/-- Fixture: a player with 3 goals in 40 appearances, whose per-game
rate sits at the 0.075 decimal boundary where the binary64 quotient
falls below the exact value. -/
def exThreeForty : PlayerRecord :=
  { id := 34, name := "R", photo := "pR", team := "T", league := "L",
    position := "FW", goals := 3, assists := 0, appearances := 40,
    rating := 0 }

/-- A record with its assists field blanked, used to compare records up
to the assists field. -/
def clearAssists (r : PlayerRecord) : PlayerRecord := { r with assists := 0 }

theorem bind_ok_eq {α β : Type} (a : α) (f : α → Except Unit β) :
    (Except.ok a >>= f) = f a := rfl

theorem bind_error_eq {α β : Type} (err : Unit) (f : α → Except Unit β) :
    ((Except.error err : Except Unit α) >>= f) = .error err := rfl

theorem lookupId_append_left {m : PlayerMap} {pid : Nat} {r : PlayerRecord}
    (l : PlayerMap) (h : lookupId pid m = some r) :
    lookupId pid (m ++ l) = some r := by
  induction m with
  | nil => exact Option.noConfusion h
  | cons e m ih =>
      rw [List.cons_append]
      simp only [lookupId] at h ⊢
      by_cases he : e.1 = pid
      · rwa [if_pos he] at h ⊢
      · rw [if_neg he] at h ⊢
        exact ih h

theorem containsKey_append_single {m : PlayerMap} {pid k : Nat}
    {r : PlayerRecord} :
    containsKey (m ++ [(k, r)]) pid = true ↔
      containsKey m pid = true ∨ pid = k := by
  induction m with
  | nil =>
      simp only [List.nil_append, containsKey, lookupId]
      by_cases hk : k = pid
      · simp [hk, if_pos rfl]
      · rw [if_neg hk]
        simp only [lookupId, Option.isSome_none, Bool.false_eq_true, false_iff,
          false_or]
        exact fun h => hk h.symm
  | cons e m ih =>
      rw [List.cons_append]
      simp only [containsKey, lookupId] at ih ⊢
      by_cases he : e.1 = pid
      · simp [if_pos he]
      · rw [if_neg he, if_neg he]
        exact ih

theorem lookupId_updateAssists (m : PlayerMap) (pid tgt : Nat)
    (av : Option Nat) :
    lookupId pid (updateAssists m tgt av) =
      (lookupId pid m).map fun r =>
        if pid = tgt then { r with assists := jsOrNat av r.assists } else r := by
  induction m with
  | nil => rfl
  | cons e m ih =>
      obtain ⟨k, r⟩ := e
      simp only [updateAssists, List.map_cons] at ih ⊢
      by_cases ht : k = tgt
      · rw [if_pos (by simpa using ht)]
        by_cases he : k = pid
        · subst he
          simp [lookupId, ht]
        · simp only [lookupId, if_neg (by simpa using he)]
          exact ih
      · rw [if_neg (by simpa using ht)]
        by_cases he : k = pid
        · subst he
          simp [lookupId, ht]
        · simp only [lookupId, if_neg (by simpa using he)]
          exact ih

theorem containsKey_updateAssists (m : PlayerMap) (pid tgt : Nat)
    (av : Option Nat) :
    containsKey (updateAssists m tgt av) pid = containsKey m pid := by
  simp [containsKey, lookupId_updateAssists]

/-- The scorer pass never changes an existing binding (insert-if-absent
semantics of lines 132-145). -/
theorem foldlM_processScorer_preserves {L : String} :
    ∀ {es : List RawEntry} {m m' : PlayerMap},
      es.foldlM (processScorer L) m = .ok m' →
      ∀ {pid : Nat} {r : PlayerRecord},
        lookupId pid m = some r → lookupId pid m' = some r := by
  intro es
  induction es with
  | nil =>
      intro m m' h pid r hr
      simp only [List.foldlM_nil] at h
      exact (Except.ok.inj h) ▸ hr
  | cons e es ih =>
      intro m m' h pid r hr
      rw [List.foldlM_cons] at h
      cases hstep : processScorer L m e with
      | error err =>
          rw [hstep, bind_error_eq] at h
          exact Except.noConfusion h
      | ok m1 =>
          rw [hstep, bind_ok_eq] at h
          refine ih h ?_
          unfold processScorer at hstep
          by_cases hc : containsKey m e.player.id = true
          · rw [if_pos hc] at hstep
            exact (Except.ok.inj hstep) ▸ hr
          · rw [if_neg hc] at hstep
            cases hs : e.statistics with
            | nil =>
                rw [hs] at hstep
                exact Except.noConfusion hstep
            | cons s rest =>
                rw [hs] at hstep
                exact (Except.ok.inj hstep) ▸ lookupId_append_left _ hr

/-- After the scorer pass, the keys are the initial keys plus the scorer
feed's player ids. -/
theorem foldlM_processScorer_keys {L : String} :
    ∀ {es : List RawEntry} {m m' : PlayerMap},
      es.foldlM (processScorer L) m = .ok m' →
      ∀ pid : Nat, containsKey m' pid = true ↔
        (containsKey m pid = true ∨ pid ∈ es.map (·.player.id)) := by
  intro es
  induction es with
  | nil =>
      intro m m' h pid
      simp only [List.foldlM_nil] at h
      obtain rfl := Except.ok.inj h
      simp
  | cons e es ih =>
      intro m m' h pid
      rw [List.foldlM_cons] at h
      cases hstep : processScorer L m e with
      | error err =>
          rw [hstep, bind_error_eq] at h
          exact Except.noConfusion h
      | ok m1 =>
          rw [hstep, bind_ok_eq] at h
          have hih := ih h pid
          unfold processScorer at hstep
          by_cases hc : containsKey m e.player.id = true
          · rw [if_pos hc] at hstep
            obtain rfl := Except.ok.inj hstep
            rw [hih]
            simp only [List.map_cons, List.mem_cons]
            constructor
            · intro hh; rcases hh with hh | hh
              · exact Or.inl hh
              · exact Or.inr (Or.inr hh)
            · intro hh
              rcases hh with hh | hh | hh
              · exact Or.inl hh
              · exact Or.inl (hh ▸ hc)
              · exact Or.inr hh
          · rw [if_neg hc] at hstep
            cases hs : e.statistics with
            | nil =>
                rw [hs] at hstep
                exact Except.noConfusion hstep
            | cons s rest =>
                rw [hs] at hstep
                obtain rfl := Except.ok.inj hstep
                rw [hih, containsKey_append_single]
                simp only [List.map_cons, List.mem_cons]
                tauto

/-- The assist pass never adds or removes keys (lines 149-156 only update
players already present). -/
theorem foldlM_processAssist_keys :
    ∀ {es : List RawEntry} {m m' : PlayerMap},
      es.foldlM processAssist m = .ok m' →
      ∀ pid : Nat, containsKey m' pid = containsKey m pid := by
  intro es
  induction es with
  | nil =>
      intro m m' h pid
      simp only [List.foldlM_nil] at h
      obtain rfl := Except.ok.inj h
      rfl
  | cons e es ih =>
      intro m m' h pid
      rw [List.foldlM_cons] at h
      cases hstep : processAssist m e with
      | error err =>
          rw [hstep, bind_error_eq] at h
          exact Except.noConfusion h
      | ok m1 =>
          rw [hstep, bind_ok_eq] at h
          have hih := ih h pid
          unfold processAssist at hstep
          by_cases hc : containsKey m e.player.id = true
          · rw [if_pos hc] at hstep
            cases hs : e.statistics with
            | nil =>
                rw [hs] at hstep
                exact Except.noConfusion hstep
            | cons s rest =>
                rw [hs] at hstep
                obtain rfl := Except.ok.inj hstep
                rw [hih, containsKey_updateAssists]
          · rw [if_neg hc] at hstep
            obtain rfl := Except.ok.inj hstep
            exact hih

/-- The assist pass can change only the assists field of a binding, and
leaves the binding untouched when the player id does not occur in the
assist feed. -/
theorem foldlM_processAssist_lookup :
    ∀ {es : List RawEntry} {m m' : PlayerMap},
      es.foldlM processAssist m = .ok m' →
      ∀ {pid : Nat} {r : PlayerRecord}, lookupId pid m = some r →
        ∃ r', lookupId pid m' = some r' ∧ clearAssists r' = clearAssists r ∧
          (pid ∉ es.map (·.player.id) → r' = r) := by
  intro es
  induction es with
  | nil =>
      intro m m' h pid r hr
      simp only [List.foldlM_nil] at h
      obtain rfl := Except.ok.inj h
      exact ⟨r, hr, rfl, fun _ => rfl⟩
  | cons e es ih =>
      intro m m' h pid r hr
      rw [List.foldlM_cons] at h
      cases hstep : processAssist m e with
      | error err =>
          rw [hstep, bind_error_eq] at h
          exact Except.noConfusion h
      | ok m1 =>
          rw [hstep, bind_ok_eq] at h
          unfold processAssist at hstep
          by_cases hc : containsKey m e.player.id = true
          · rw [if_pos hc] at hstep
            cases hs : e.statistics with
            | nil =>
                rw [hs] at hstep
                exact Except.noConfusion hstep
            | cons s rest =>
                rw [hs] at hstep
                obtain rfl := Except.ok.inj hstep
                have hm1 : lookupId pid (updateAssists m e.player.id s.goals.assists) =
                    some (if pid = e.player.id then
                      { r with assists := jsOrNat s.goals.assists r.assists } else r) := by
                  rw [lookupId_updateAssists, hr]; rfl
                obtain ⟨r', hr', hclear, hnot⟩ := ih h hm1
                refine ⟨r', hr', ?_, ?_⟩
                · rw [hclear]
                  by_cases hpe : pid = e.player.id <;> simp [hpe, clearAssists]
                · intro hmem
                  simp only [List.map_cons, List.mem_cons, not_or] at hmem
                  obtain ⟨hne, hnes⟩ := hmem
                  rw [hnot hnes, if_neg hne]
          · rw [if_neg hc] at hstep
            obtain rfl := Except.ok.inj hstep
            obtain ⟨r', hr', hclear, hnot⟩ := ih h hr
            refine ⟨r', hr', hclear, fun hmem => ?_⟩
            exact hnot (by simp only [List.map_cons, List.mem_cons, not_or] at hmem; exact hmem.2)

/-- Split `processCompetition` into its scorer and assist passes. -/
theorem processCompetition_eq_ok {m m' : PlayerMap} {c : Competition}
    (h : processCompetition m c = .ok m') :
    ∃ m1, c.scorers.foldlM (processScorer c.leagueName) m = .ok m1 ∧
      c.assists.foldlM processAssist m1 = .ok m' := by
  unfold processCompetition at h
  cases hs : c.scorers.foldlM (processScorer c.leagueName) m with
  | error err => rw [hs, bind_error_eq] at h; cases h
  | ok m1 => rw [hs, bind_ok_eq] at h; exact ⟨m1, rfl, h⟩

theorem aggregate_singleton (c : Competition) :
    aggregate [c] = processCompetition [] c := by
  simp [aggregate]

theorem aggregate_pair (c1 c2 : Competition) :
    aggregate [c1, c2] =
      processCompetition [] c1 >>= fun m => processCompetition m c2 := by
  simp [aggregate]

/-- A single assist entry for a different player leaves a binding
untouched. -/
theorem processAssist_lookup_other {m m1 : PlayerMap} {e : RawEntry}
    {pid : Nat} (hne : e.player.id ≠ pid)
    (hstep : processAssist m e = .ok m1) :
    lookupId pid m1 = lookupId pid m := by
  unfold processAssist at hstep
  by_cases hc : containsKey m e.player.id = true
  · rw [if_pos hc] at hstep
    cases hs : e.statistics with
    | nil =>
        rw [hs] at hstep
        exact Except.noConfusion hstep
    | cons s rest =>
        rw [hs] at hstep
        obtain rfl := Except.ok.inj hstep
        rw [lookupId_updateAssists]
        cases hl : lookupId pid m with
        | none => rfl
        | some r =>
            simp only [Option.map_some']
            rw [if_neg (fun hh => hne hh.symm)]
  · rw [if_neg hc] at hstep
    obtain rfl := Except.ok.inj hstep
    rfl

/-- An assist feed containing no entry for a player leaves that player's
binding untouched. -/
theorem foldlM_processAssist_no_entry {pid : Nat} :
    ∀ {es : List RawEntry} {m m' : PlayerMap},
      (∀ e ∈ es, e.player.id ≠ pid) →
      es.foldlM processAssist m = .ok m' →
      lookupId pid m' = lookupId pid m := by
  intro es
  induction es with
  | nil =>
      intro m m' _ h
      simp only [List.foldlM_nil] at h
      obtain rfl := Except.ok.inj h
      rfl
  | cons e es ih =>
      intro m m' hne h
      rw [List.foldlM_cons] at h
      cases hstep : processAssist m e with
      | error err =>
          rw [hstep, bind_error_eq] at h
          exact Except.noConfusion h
      | ok m1 =>
          rw [hstep, bind_ok_eq] at h
          rw [ih (fun x hx => hne x (List.mem_cons_of_mem e hx)) h,
            processAssist_lookup_other (hne e (List.mem_cons_self e es)) hstep]

/-- When the assist feed contains exactly one entry for a mapped player,
that player's assists field ends up as the JS value
`entryAssists || previousAssists`. -/
theorem foldlM_processAssist_unique_entry {pid : Nat} {av : Option Nat} :
    ∀ {es : List RawEntry} {m m' : PlayerMap} {r : PlayerRecord}
      {e0 : RawEntry} {s0 : RawStats} {rest : List RawStats},
      es.filter (fun e => e.player.id = pid) = [e0] →
      e0.statistics = s0 :: rest →
      s0.goals.assists = av →
      es.foldlM processAssist m = .ok m' →
      lookupId pid m = some r →
      lookupId pid m' = some { r with assists := jsOrNat av r.assists } := by
  intro es
  induction es with
  | nil =>
      intro m m' r e0 s0 rest hf
      exact absurd hf (by simp)
  | cons e es ih =>
      intro m m' r e0 s0 rest hf hst hav h hr
      rw [List.foldlM_cons] at h
      cases hstep : processAssist m e with
      | error err =>
          rw [hstep, bind_error_eq] at h
          exact Except.noConfusion h
      | ok m1 =>
          rw [hstep, bind_ok_eq] at h
          by_cases hid : e.player.id = pid
          · rw [List.filter_cons_of_pos (by simpa using hid)] at hf
            have he0 : e = e0 := (List.cons.inj hf).1
            have hfes : es.filter (fun x => x.player.id = pid) = [] :=
              (List.cons.inj hf).2
            subst he0
            have hc : containsKey m e.player.id = true := by
              simp [containsKey, hid, hr]
            unfold processAssist at hstep
            rw [if_pos hc, hst] at hstep
            obtain rfl := Except.ok.inj hstep
            have hm1 : lookupId pid
                (updateAssists m e.player.id s0.goals.assists) =
                some { r with assists := jsOrNat av r.assists } := by
              rw [lookupId_updateAssists, hr]
              simp only [Option.map_some']
              rw [if_pos hid.symm, hav]
            have hnone : ∀ x ∈ es, x.player.id ≠ pid := by
              intro x hx
              have := List.filter_eq_nil_iff.mp hfes x hx
              simpa using this
            rw [foldlM_processAssist_no_entry hnone h, hm1]
          · rw [List.filter_cons_of_neg (by simpa using hid)] at hf
            have hr1 : lookupId pid m1 = some r := by
              rw [processAssist_lookup_other hid hstep, hr]
            exact ih hf hst hav h hr1

/-- C1: the per-competition merge is scorer-anchored — the output mapping
contains exactly the player identifiers of the scorer feed, so a player
present only in the assist feed never enters the mapping. -/
theorem merger_keys_are_scorer_ids (c : Competition) (m : PlayerMap)
    (pid : Nat) (h : processCompetition [] c = .ok m) :
    containsKey m pid = true ↔ pid ∈ c.scorers.map (·.player.id) := by
  obtain ⟨m1, hS, hA⟩ := processCompetition_eq_ok h
  rw [foldlM_processAssist_keys hA pid, foldlM_processScorer_keys hS pid]
  simp [containsKey, lookupId]

/-- Witness for C1 on a concrete competition whose assist feed mentions
player 3, absent from the scorer feed. -/
theorem merger_keys_are_scorer_ids_witness :
    processCompetition [] exCompJoin = .ok exMap1 ∧
    (containsKey exMap1 3 = true ↔ 3 ∈ exCompJoin.scorers.map (·.player.id)) :=
  ⟨rfl, merger_keys_are_scorer_ids exCompJoin exMap1 3 rfl⟩

/-- C2 counterexample: player 10 appears in competition 1's scorer feed
with 2 assists and in competition 2's assist feed with 7 assists; the
global record after aggregating both competitions differs from the
record after competition 1 alone — the later competition's assist feed
overwrote the assists field. -/
theorem aggregate_later_competition_overwrites :
    10 ∈ exComp2.assists.map (·.player.id) ∧
    ((aggregate [exComp1]).toOption.bind (lookupId 10)).map (·.assists) =
      some 2 ∧
    ((aggregate [exComp1, exComp2]).toOption.bind (lookupId 10)).map
      (·.assists) = some 7 ∧
    (aggregate [exComp1, exComp2]).toOption.bind (lookupId 10) ≠
      (aggregate [exComp1]).toOption.bind (lookupId 10) := by
  decide

/-- C2 amended: aggregating a later competition preserves every field of
an already-inserted record except possibly assists; when the player id
does not occur in the later competition's assist feed the record is
preserved verbatim. -/
theorem aggregate_preserves_earlier_except_assists
    (c1 c2 : Competition) (pid : Nat) (m1 m2 : PlayerMap)
    (r1 : PlayerRecord)
    (h1 : aggregate [c1] = .ok m1)
    (h2 : aggregate [c1, c2] = .ok m2)
    (hr : lookupId pid m1 = some r1) :
    ∃ r2, lookupId pid m2 = some r2 ∧
      clearAssists r2 = clearAssists r1 ∧
      (pid ∉ c2.assists.map (·.player.id) → r2 = r1) := by
  rw [aggregate_singleton] at h1
  rw [aggregate_pair, h1, bind_ok_eq] at h2
  obtain ⟨mS, hS, hA⟩ := processCompetition_eq_ok h2
  exact foldlM_processAssist_lookup hA (foldlM_processScorer_preserves hS hr)

/-- Witness for the amended C2 at the concrete two-competition input. -/
theorem aggregate_preserves_earlier_witness :
    aggregate [exComp1] = .ok exMap1 ∧
    aggregate [exComp1, exComp2] = .ok exMap2 ∧
    lookupId 10 exMap1 = some exRecA ∧
    ∃ r2, lookupId 10 exMap2 = some r2 ∧
      clearAssists r2 = clearAssists exRecA ∧
      (10 ∉ exComp2.assists.map (·.player.id) → r2 = exRecA) :=
  ⟨rfl, rfl, rfl,
    aggregate_preserves_earlier_except_assists exComp1 exComp2 10
      exMap1 exMap2 exRecA rfl rfl rfl⟩

/-- C3 counterexample: a scorer feed with a well-formed entry, a
malformed entry (empty statistics block), and another well-formed entry
makes the merge abort with an error instead of skipping the malformed
entry, while the same feed without the malformed entry merges both
well-formed entries. -/
theorem malformed_entry_aborts_not_skips :
    (aggregate [⟨"PREMIER_LEAGUE", [exScorerA, exMalformed, exScorerB],
      []⟩]).toOption = none ∧
    ((aggregate [⟨"PREMIER_LEAGUE", [exScorerA, exScorerB],
      []⟩]).toOption.map (fun m => m.map (·.1))) = some [10, 2] := by
  decide

/-- C3 amended: a scorer entry with an empty statistics block for a
player not already in the mapping makes the merge throw: the whole
competition merge evaluates to an error and entries after the malformed
one are never processed. -/
theorem malformed_scorer_entry_aborts_merge
    (L : String) (pre post asst : List RawEntry) (mal : RawEntry)
    (m0 m : PlayerMap)
    (hstats : mal.statistics = [])
    (hpre : pre.foldlM (processScorer L) m0 = .ok m)
    (habs : ¬containsKey m mal.player.id = true) :
    processCompetition m0 ⟨L, pre ++ mal :: post, asst⟩ = .error () := by
  have hmal : processScorer L m mal = .error () := by
    unfold processScorer
    rw [if_neg habs, hstats]
  unfold processCompetition
  simp only [List.foldlM_append, List.foldlM_cons, hpre, bind_ok_eq, hmal,
    bind_error_eq]

/-- Witness for the amended C3 at a concrete feed containing the
malformed entry between two well-formed ones. -/
theorem malformed_scorer_entry_aborts_witness :
    exMalformed.statistics = [] ∧
    List.foldlM (processScorer "PREMIER_LEAGUE") [] [exScorerA] =
      .ok exMap1 ∧
    ¬containsKey exMap1 99 = true ∧
    processCompetition []
      ⟨"PREMIER_LEAGUE", [exScorerA] ++ exMalformed :: [exScorerB], []⟩ =
      .error () :=
  ⟨rfl, rfl, by decide,
    malformed_scorer_entry_aborts_merge "PREMIER_LEAGUE" [exScorerA]
      [exScorerB] [] exMalformed [] exMap1 rfl rfl (by decide)⟩

theorem byGoalsAndAssists_trans (a b c : RankedPlayer)
    (hab : byGoalsAndAssists a b) (hbc : byGoalsAndAssists b c) :
    byGoalsAndAssists a c := by
  simp only [byGoalsAndAssists, decide_eq_true_eq] at hab hbc ⊢
  omega

theorem byGoalsAndAssists_total (a b : RankedPlayer) :
    byGoalsAndAssists a b || byGoalsAndAssists b a := by
  simp only [byGoalsAndAssists, Bool.or_eq_true, decide_eq_true_eq]
  omega

/-- C4: the ranker sorts by combined score descending (modelling the
stable JS sort with a stable merge sort), ties keep the original
insertion order (the tied elements of the sorted list are exactly the
tied elements of the input, in order, and the truncated output's tied
elements are a prefix of them), the output length is the minimum of the
leaderboard size (10) and the number of players, and an empty input
yields an empty output. -/
theorem ranker_sorted_stable_truncated (ps : List PlayerRecord) (k : Nat) :
    (rankPlayers ps).Pairwise
      (fun a b => b.goalsAndAssists ≤ a.goalsAndAssists) ∧
    ((ps.map deriveStats).mergeSort byGoalsAndAssists).filter
        (fun x => x.goalsAndAssists = k) =
      (ps.map deriveStats).filter (fun x => x.goalsAndAssists = k) ∧
    ((rankPlayers ps).filter (fun x => x.goalsAndAssists = k) <+:
      (ps.map deriveStats).filter (fun x => x.goalsAndAssists = k)) ∧
    (rankPlayers ps).length = min TOP_PLAYERS_COUNT ps.length ∧
    TOP_PLAYERS_COUNT = 10 ∧
    rankPlayers [] = [] := by
  have hsorted := List.sorted_mergeSort
    byGoalsAndAssists_trans byGoalsAndAssists_total (ps.map deriveStats)
  have hperm := List.mergeSort_perm (ps.map deriveStats) byGoalsAndAssists
  have hstab : ((ps.map deriveStats).mergeSort byGoalsAndAssists).filter
      (fun x => x.goalsAndAssists = k) =
      (ps.map deriveStats).filter (fun x => x.goalsAndAssists = k) := by
    have hpw : ((ps.map deriveStats).filter
        (fun x => x.goalsAndAssists = k)).Pairwise
        (fun a b => byGoalsAndAssists a b) := by
      apply List.pairwise_of_forall_mem_list
      intro a ha b hb
      have ha' := (List.mem_filter.mp ha).2
      have hb' := (List.mem_filter.mp hb).2
      simp only [decide_eq_true_eq] at ha' hb'
      simp [byGoalsAndAssists, ha', hb']
    have hsub := List.sublist_mergeSort byGoalsAndAssists_trans
      byGoalsAndAssists_total hpw (List.filter_sublist _)
    have hidem : (((ps.map deriveStats).filter
        (fun x => x.goalsAndAssists = k)).filter
        (fun x => x.goalsAndAssists = k)) =
        (ps.map deriveStats).filter (fun x => x.goalsAndAssists = k) :=
      List.filter_eq_self.mpr (fun a ha => (List.mem_filter.mp ha).2)
    have hsub2 := hsub.filter (fun x => x.goalsAndAssists = k)
    rw [hidem] at hsub2
    have hlen := ((hperm.filter (fun x => x.goalsAndAssists = k)).length_eq)
    exact (hsub2.eq_of_length hlen.symm).symm
  refine ⟨?_, hstab, ?_, ?_, rfl, by simp [rankPlayers]⟩
  · have := List.Pairwise.sublist
      (List.take_sublist TOP_PLAYERS_COUNT _) hsorted
    exact this.imp (fun {a b} h => by
      simpa [byGoalsAndAssists] using h)
  · have hpre := (List.take_prefix TOP_PLAYERS_COUNT
      ((ps.map deriveStats).mergeSort byGoalsAndAssists)).filter
      (fun x => x.goalsAndAssists = k)
    rw [hstab] at hpre
    exact hpre
  · simp [rankPlayers, List.length_take]

/-- C5: snapshot-cache semantics — a `get` immediately after a `put`
returns the stored leaderboard; once `maxAge` (the 24-hour
`CACHE_DURATION`) has elapsed the `get` reports no valid snapshot;
after an invalidation the `get` reports no valid snapshot regardless of
age; and a corrupt (unparseable) backing store reads as no valid
snapshot rather than an error. -/
theorem snapshot_cache_contract (L : List RankedPlayer) (t now : Int)
    (st : ManagerState) :
    CACHE_DURATION = 24 * 60 * 60 * 1000 ∧
    (loadCache t (saveCache L t)).map (·.players) = some (some L) ∧
    (CACHE_DURATION ≤ now - t → loadCache now (saveCache L t) = none) ∧
    loadCache now (invalidate st).store = none ∧
    loadCache now (some (.error ())) = none := by
  refine ⟨rfl, ?_, ?_, rfl, rfl⟩
  · simp only [loadCache, saveCache]
    rw [if_pos]
    · rfl
    · simp only [CACHE_DURATION]
      omega
  · intro h
    simp only [loadCache, saveCache]
    rw [if_neg]
    simp only [CACHE_DURATION] at h ⊢
    omega

/-- Witness for C5: a snapshot stored at time 0 is no longer served at
time `CACHE_DURATION`. -/
theorem snapshot_cache_contract_witness :
    loadCache 86400000 (saveCache [] 0) = none :=
  (snapshot_cache_contract [] 0 86400000 ⟨none, none⟩).2.2.1 (by decide)

/-- Natural division `(200 * x + a) / (2 * a)` is `100 * x / a` rounded
to the nearest integer with ties toward the larger value. -/
theorem roundHundredths_bounds (x a : Nat) (ha : 0 < a) :
    100 * (x : ℚ) / (a : ℚ) - 1 / 2 < (((200 * x + a) / (2 * a) : Nat) : ℚ) ∧
    (((200 * x + a) / (2 * a) : Nat) : ℚ) ≤ 100 * (x : ℚ) / (a : ℚ) + 1 / 2 := by
  have h2a : 0 < 2 * a := by omega
  have hdm := Nat.div_add_mod (200 * x + a) (2 * a)
  have hmod := Nat.mod_lt (200 * x + a) h2a
  have hlow : 2 * a * ((200 * x + a) / (2 * a)) ≤ 200 * x + a := by omega
  have hhigh : 200 * x + a < 2 * a * ((200 * x + a) / (2 * a)) + 2 * a := by
    omega
  have haq : (0 : ℚ) < (a : ℚ) := by exact_mod_cast ha
  have hlowq : 2 * (a : ℚ) * (((200 * x + a) / (2 * a) : Nat) : ℚ) ≤
      200 * (x : ℚ) + (a : ℚ) := by exact_mod_cast hlow
  have hhighq : 200 * (x : ℚ) + (a : ℚ) <
      2 * (a : ℚ) * (((200 * x + a) / (2 * a) : Nat) : ℚ) + 2 * (a : ℚ) := by
    exact_mod_cast hhigh
  have hkey : 100 * (x : ℚ) / (a : ℚ) + 1 / 2 =
      (200 * (x : ℚ) + (a : ℚ)) / (2 * (a : ℚ)) := by
    field_simp
    ring
  constructor
  · have hlt : (200 * (x : ℚ) + (a : ℚ)) / (2 * (a : ℚ)) <
        (((200 * x + a) / (2 * a) : Nat) : ℚ) + 1 := by
      rw [div_lt_iff₀ (by positivity)]
      linarith
    rw [← hkey] at hlt
    linarith
  · have hle : (((200 * x + a) / (2 * a) : Nat) : ℚ) ≤
        (200 * (x : ℚ) + (a : ℚ)) / (2 * (a : ℚ)) := by
      rw [le_div_iff₀ (by positivity)]
      linarith
    rw [hkey]
    exact hle

/-- The hundredths value of `toFixed2OfParts` is within half a hundredth
of 100 times the double's exact value `m * 2 ^ e`, ties toward the
larger candidate. -/
theorem toFixed2OfParts_bounds (m : Nat) (e : Int) :
    100 * (m : ℚ) * (2 : ℚ) ^ e - 1 / 2 < (toFixed2OfParts m e : ℚ) ∧
    (toFixed2OfParts m e : ℚ) ≤ 100 * (m : ℚ) * (2 : ℚ) ^ e + 1 / 2 := by
  by_cases he : 0 ≤ e
  · have h1 : (2 : ℚ) ^ e = (2 : ℚ) ^ e.toNat := by
      conv_lhs => rw [← Int.toNat_of_nonneg he]
      exact zpow_natCast 2 e.toNat
    have hn : (toFixed2OfParts m e : ℚ) = 100 * (m : ℚ) * (2 : ℚ) ^ e := by
      simp only [toFixed2OfParts, if_pos he]
      push_cast
      rw [h1]
    rw [hn]
    constructor <;> linarith
  · have h2 : (2 : ℚ) ^ e = ((2 : ℚ) ^ (-e).toNat)⁻¹ := by
      conv_lhs => rw [show e = -(((-e).toNat : ℕ) : ℤ) by omega]
      rw [zpow_neg, zpow_natCast]
    have hv : 100 * (m : ℚ) * (2 : ℚ) ^ e =
        100 * (m : ℚ) / ((2 ^ (-e).toNat : ℕ) : ℚ) := by
      rw [h2]
      push_cast
      ring
    obtain ⟨hb1, hb2⟩ := roundHundredths_bounds m (2 ^ (-e).toNat)
      (by positivity)
    simp only [toFixed2OfParts, if_neg he]
    rw [hv]
    exact ⟨hb1, hb2⟩

/-- For non-zero goals, `jsToFixed2` is within half a hundredth of 100
times the binary64 quotient, ties toward the larger candidate. -/
theorem jsToFixed2_double_bounds (g a : Nat) (hg : g ≠ 0) :
    100 * ((jsDivSig g a).1 : ℚ) * (2 : ℚ) ^ (jsDivSig g a).2 - 1 / 2 <
      (jsToFixed2 g a : ℚ) ∧
    (jsToFixed2 g a : ℚ) ≤
      100 * ((jsDivSig g a).1 : ℚ) * (2 : ℚ) ^ (jsDivSig g a).2 + 1 / 2 := by
  simp only [jsToFixed2, if_neg hg]
  exact toFixed2OfParts_bounds (jsDivSig g a).1 (jsDivSig g a).2

/-- C6 counterexample: at goals = 3, appearances = 40 the program stores
7 hundredths — the binary64 value of 3 / 40 lies just below 0.075, so
`toFixed(2)` gives "0.07" — but 3 / 40 rounded to 2 decimal places is
0.08: the stored rate is outside the rounding interval of the exact
quotient, refuting the claim as stated. -/
theorem perGameRate_not_exact_rounding :
    (deriveStats exThreeForty).goalsPerGame = 7 ∧
    ¬(100 * (3 : ℚ) / 40 - 1 / 2 <
        ((deriveStats exThreeForty).goalsPerGame : ℚ) ∧
      ((deriveStats exThreeForty).goalsPerGame : ℚ) ≤
        100 * (3 : ℚ) / 40 + 1 / 2) := by
  have h7 : (deriveStats exThreeForty).goalsPerGame = 7 := by decide
  refine ⟨h7, ?_⟩
  rw [h7]
  intro hcon
  have h1 := hcon.1
  norm_num at h1

/-- C6 (amended): every derived record has
`goalsAndAssists = goals + assists`; `goalsPerGame` is the sentinel 0
when appearances is 0 (and the double `+0`, i.e. 0 hundredths, when
goals is 0); otherwise it is `toFixed(2)` of the IEEE-754 binary64
quotient goals / appearances: in hundredths, the integer within half a
hundredth of 100 times the exact value of the double quotient, ties
toward the larger candidate — which can differ from exact-rational
rounding of goals / appearances at representation boundaries. -/
theorem derived_fields_spec (ps : List PlayerRecord) (r : RankedPlayer)
    (hr : r ∈ ps.map deriveStats) :
    r.goalsAndAssists = r.base.goals + r.base.assists ∧
    (r.base.appearances = 0 → r.goalsPerGame = 0) ∧
    (0 < r.base.appearances → r.base.goals = 0 → r.goalsPerGame = 0) ∧
    (0 < r.base.appearances → r.base.goals ≠ 0 →
      100 * ((jsDivSig r.base.goals r.base.appearances).1 : ℚ) *
          (2 : ℚ) ^ (jsDivSig r.base.goals r.base.appearances).2 - 1 / 2 <
        (r.goalsPerGame : ℚ) ∧
      (r.goalsPerGame : ℚ) ≤
        100 * ((jsDivSig r.base.goals r.base.appearances).1 : ℚ) *
          (2 : ℚ) ^ (jsDivSig r.base.goals r.base.appearances).2 + 1 / 2) := by
  obtain ⟨p, hp, rfl⟩ := List.mem_map.mp hr
  refine ⟨rfl, ?_, ?_, ?_⟩
  · intro h0
    simp only [deriveStats] at h0 ⊢
    rw [if_neg (by omega)]
  · intro hpos hg0
    simp only [deriveStats] at hpos hg0 ⊢
    rw [if_pos hpos]
    simp [jsToFixed2, hg0]
  · intro hpos hg
    simp only [deriveStats] at hpos hg ⊢
    rw [if_pos hpos]
    exact jsToFixed2_double_bounds p.goals p.appearances hg

/-- Witness for C6: 7 goals in 3 appearances give 2.33 (233 hundredths)
through the binary64 pipeline, the claim's concrete example. -/
theorem derived_fields_spec_witness :
    (deriveStats exSeven).goalsPerGame = 233 ∧
    deriveStats exSeven ∈ [exSeven].map deriveStats ∧
    ((deriveStats exSeven).goalsAndAssists =
        (deriveStats exSeven).base.goals +
          (deriveStats exSeven).base.assists ∧
      ((deriveStats exSeven).base.appearances = 0 →
        (deriveStats exSeven).goalsPerGame = 0) ∧
      (0 < (deriveStats exSeven).base.appearances →
        (deriveStats exSeven).base.goals = 0 →
        (deriveStats exSeven).goalsPerGame = 0) ∧
      (0 < (deriveStats exSeven).base.appearances →
        (deriveStats exSeven).base.goals ≠ 0 →
        100 * ((jsDivSig (deriveStats exSeven).base.goals
              (deriveStats exSeven).base.appearances).1 : ℚ) *
            (2 : ℚ) ^ (jsDivSig (deriveStats exSeven).base.goals
              (deriveStats exSeven).base.appearances).2 - 1 / 2 <
          ((deriveStats exSeven).goalsPerGame : ℚ) ∧
        ((deriveStats exSeven).goalsPerGame : ℚ) ≤
          100 * ((jsDivSig (deriveStats exSeven).base.goals
              (deriveStats exSeven).base.appearances).1 : ℚ) *
            (2 : ℚ) ^ (jsDivSig (deriveStats exSeven).base.goals
              (deriveStats exSeven).base.appearances).2 + 1 / 2)) :=
  ⟨by decide, by decide,
    derived_fields_spec [exSeven] (deriveStats exSeven) (by decide)⟩

/-- C7: when a player appears in the scorer feed (record `r` after the
scorer pass) and exactly once in the assist feed, the merged assists
field equals the assist feed's count when that count is present and
non-zero, and otherwise keeps the scorer-derived value; no other field
changes. -/
theorem merged_assists_prefers_nonzero_assist_feed
    (c : Competition) (pid : Nat) (m1 m' : PlayerMap) (r : PlayerRecord)
    (e0 : RawEntry) (s0 : RawStats) (rest : List RawStats)
    (hS : c.scorers.foldlM (processScorer c.leagueName) [] = .ok m1)
    (hr : lookupId pid m1 = some r)
    (hf : c.assists.filter (fun e => e.player.id = pid) = [e0])
    (hst : e0.statistics = s0 :: rest)
    (hA : c.assists.foldlM processAssist m1 = .ok m') :
    ∃ r', lookupId pid m' = some r' ∧
      (∀ n, s0.goals.assists = some n → n ≠ 0 → r'.assists = n) ∧
      (s0.goals.assists.getD 0 = 0 → r'.assists = r.assists) ∧
      clearAssists r' = clearAssists r := by
  have hmain := foldlM_processAssist_unique_entry hf hst rfl hA hr
  refine ⟨_, hmain, ?_, ?_, rfl⟩
  · intro n hn hnz
    simp [jsOrNat, hn, hnz]
  · intro h0
    cases hv : s0.goals.assists with
    | none => simp [jsOrNat, hv]
    | some v =>
        rw [hv] at h0
        simp only [Option.getD_some] at h0
        simp [jsOrNat, hv, h0]

/-- Witness for C7: player 10 has 2 assists from the scorer feed and a
non-zero assist-feed count of 7; the merged record carries 7. -/
theorem merged_assists_witness :
    exCompBoth.scorers.foldlM (processScorer exCompBoth.leagueName) [] =
      .ok exMap1 ∧
    lookupId 10 exMap1 = some exRecA ∧
    exCompBoth.assists.filter (fun e => e.player.id = 10) = [exAssistA7] ∧
    exAssistA7.statistics =
      ⟨"TeamA", ⟨some 18, "FW", some 650⟩, ⟨none, some 7⟩⟩ :: [] ∧
    exCompBoth.assists.foldlM processAssist exMap1 = .ok exMap2 ∧
    ∃ r', lookupId 10 exMap2 = some r' ∧
      (∀ n, (⟨"TeamA", ⟨some 18, "FW", some 650⟩,
          ⟨none, some 7⟩⟩ : RawStats).goals.assists = some n → n ≠ 0 →
        r'.assists = n) ∧
      ((⟨"TeamA", ⟨some 18, "FW", some 650⟩,
          ⟨none, some 7⟩⟩ : RawStats).goals.assists.getD 0 = 0 →
        r'.assists = exRecA.assists) ∧
      clearAssists r' = clearAssists exRecA :=
  ⟨rfl, rfl, by decide, rfl, rfl,
    merged_assists_prefers_nonzero_assist_feed exCompBoth 10 exMap1 exMap2
      exRecA exAssistA7 _ [] rfl rfl (by decide) rfl rfl⟩

theorem processCompetition_empty_feeds (m : PlayerMap) (name : String) :
    processCompetition m ⟨name, [], []⟩ = .ok m := rfl

/-- C8: the feed client turns a transport error into an empty sequence,
and a competition both of whose fetches fail contributes nothing — the
aggregation over the remaining competitions is unchanged and completes. -/
theorem failed_fetch_contributes_nothing (pre post : List CompetitionFetch)
    (name : String) :
    getTopScorers (.error ()) = [] ∧
    getTopAssists (.error ()) = [] ∧
    aggregateFetched (pre ++ ⟨name, .error (), .error ()⟩ :: post) =
      aggregateFetched (pre ++ post) := by
  refine ⟨rfl, rfl, ?_⟩
  simp only [aggregateFetched, aggregate, List.map_append, List.map_cons,
    List.foldlM_append]
  cases hpre : (pre.map runCompetitionFetch).foldlM processCompetition [] with
  | error err =>
      rw [bind_error_eq, bind_error_eq]
  | ok m =>
      rw [bind_ok_eq, bind_ok_eq, List.foldlM_cons]
      have hmid : processCompetition m
          (runCompetitionFetch ⟨name, .error (), .error ()⟩) = .ok m := rfl
      rw [hmid, bind_ok_eq]

/-- C9: the `initialize` credential guard compares the configured key to
the literal hex string, not to the unset placeholder; with the key left
at its placeholder `'YOUR_API_KEY_HERE'` the code does not show the
API-key warning and proceeds to run the aggregation. -/
theorem unset_api_key_not_surfaced :
    API_KEY = "YOUR_API_KEY_HERE" ∧
    checkInitialize API_KEY = .ranAggregation := by
  exact ⟨rfl, by decide⟩

/-- C10: the cache's age is checked only in the constructor; if a valid
snapshot with a players list was loaded then, every later
`getAllPlayers` call returns that list unchanged for any clock value and
any feed contents (no age re-check, no fetch, no state change), while
after an explicit invalidation the fresh path runs. -/
theorem getAllPlayers_cache_hit_no_recheck (store : CacheStore) (t0 : Int)
    (d : CacheData) (ps : List RankedPlayer)
    (hload : loadCache t0 store = some d) (hps : d.players = some ps) :
    ∀ (now : Int) (comps : List CompetitionFetch),
      getAllPlayers (mkManager t0 store) now comps =
        (.ok ps, mkManager t0 store) ∧
      (getAllPlayers (invalidate (mkManager t0 store)) now comps).1 =
        topPlayers comps := by
  intro now comps
  obtain ⟨td, pl⟩ := d
  simp only at hps
  subst hps
  have h1 : mkManager t0 store = ⟨some ⟨td, some ps⟩, store⟩ := by
    simp [mkManager, hload]
  rw [h1]
  constructor
  · rfl
  · simp only [invalidate, getAllPlayers, freshFetch]
    cases h : topPlayers comps <;> simp [h]

/-- Witness for C10: a snapshot stored at time 0 is still served, with
no fetch, at a clock value far past the 24-hour maximum age. -/
theorem getAllPlayers_cache_hit_witness :
    loadCache 0 (saveCache [] 0) = some ⟨0, some []⟩ ∧
    (getAllPlayers (mkManager 0 (saveCache [] 0)) 999999999999
        [⟨"PREMIER_LEAGUE", .ok [exScorerA], .ok []⟩] =
      (.ok [], mkManager 0 (saveCache [] 0)) ∧
    (getAllPlayers (invalidate (mkManager 0 (saveCache [] 0))) 999999999999
        [⟨"PREMIER_LEAGUE", .ok [exScorerA], .ok []⟩]).1 =
      topPlayers [⟨"PREMIER_LEAGUE", .ok [exScorerA], .ok []⟩]) :=
  ⟨by decide,
    getAllPlayers_cache_hit_no_recheck (saveCache [] 0) 0 ⟨0, some []⟩ []
      (by decide) rfl 999999999999
      [⟨"PREMIER_LEAGUE", .ok [exScorerA], .ok []⟩]⟩

end YnwaStats
